import Mathlib

/-!
# Verification of the MCP client pool and pipeline orchestrator

Shallow embedding of the resource-pool subsystem of the repository
(`services/mcp_client_pool.py`, `services/mcp_client_manager.py`) and of the
multi-step pipeline orchestrator (`services/strands_agents_simple.py`,
class `MCPEnabledOrchestrator`), together with proofs of the specified
resource-safety, invariant and degradation properties.

Modelling conventions:
* Client handles are identified by natural numbers (Python's `id(client)`);
  the pool's ghost field `nextId` supplies fresh identities, mirroring the
  fact that `DirectMCPClient.create_client` returns a brand-new object.
* Each `async with self.lock:` section of the Python code is one atomic
  step of the model; the event-loop clock is a sequence of rational
  time-stamps, one per deadline check.
* Disconnecting a client (`client.__exit__`) is recorded in the ghost set
  `disconnected`.

The file is organised as definitions first, then theorems.
-/

namespace SolutionBuilder

/-- Static configuration of one `MCPClientPool`:
`pool_size` and `max_wait` from `MCPClientPool.__init__`. -/
structure PoolCfg where
  poolSize : Nat
  maxWait : ℚ
deriving DecidableEq

/-- Mutable state of one `MCPClientPool`.

* `pool` — the `deque` of available clients (head = left end, so
  `popleft` takes the head and `append` adds at the tail);
* `inUse` — the `in_use` set of client ids;
* `createdCount`, `reusedCount`, `totalRequests` — the three counters;
* `disconnected` — ghost set of ids on which `client.__exit__` was called;
* `nextId` — ghost source of fresh identities for newly created clients. -/
structure PoolState where
  pool : List Nat
  inUse : Finset Nat
  createdCount : Nat
  reusedCount : Nat
  totalRequests : Nat
  disconnected : Finset Nat
  nextId : Nat
deriving DecidableEq

/-- The state of a freshly constructed `MCPClientPool`. -/
def initPoolState : PoolState :=
  { pool := [], inUse := ∅, createdCount := 0, reusedCount := 0
    totalRequests := 0, disconnected := ∅, nextId := 0 }

/-- Outcome of one locked attempt inside `MCPClientPool.acquire`. -/
inductive TryResult where
  | reused (cid : Nat)
  | created (cid : Nat)
  | wait
deriving DecidableEq

/-- One `async with self.lock:` section of `MCPClientPool.acquire`:
if the deque is non-empty, pop the left end, add it to `in_use` and bump
`_reused_count`; else if `_created_count < pool_size`, create a fresh
client, enter it, bump `_created_count` and add it to `in_use`; else
fall through to the wait path, leaving the state unchanged. -/
def tryAcquire (cfg : PoolCfg) (s : PoolState) : TryResult × PoolState :=
  match s.pool with
  | c :: rest =>
      (.reused c,
        { s with pool := rest, inUse := insert c s.inUse
                 reusedCount := s.reusedCount + 1 })
  | [] =>
      if s.createdCount < cfg.poolSize then
        (.created s.nextId,
          { s with inUse := insert s.nextId s.inUse
                   createdCount := s.createdCount + 1
                   nextId := s.nextId + 1 })
      else
        (.wait, s)

/-- Entry into `MCPClientPool.acquire`: the `self._total_requests += 1`
bump followed by the first locked attempt. -/
def acquireStart (cfg : PoolCfg) (s : PoolState) : TryResult × PoolState :=
  tryAcquire cfg { s with totalRequests := s.totalRequests + 1 }

/-- The method `MCPClientPool.release(client, force_recreate)`: if the
client id is not in `in_use`, log a warning and return with the state
unchanged; otherwise remove it from `in_use`; then, if `force_recreate`,
call `client.__exit__` (recorded in `disconnected`) and do **not**
return the client to the deque (note: `_created_count` is *not*
decremented); otherwise append the client to the right end of the deque
without disconnecting it. -/
def release (s : PoolState) (cid : Nat) (forceRecreate : Bool) : PoolState :=
  if cid ∉ s.inUse then s
  else
    let s₁ := { s with inUse := s.inUse.erase cid }
    if forceRecreate then
      { s₁ with disconnected := insert cid s₁.disconnected }
    else
      { s₁ with pool := s₁.pool ++ [cid] }

/-- One atomic pool operation, as seen by the pool's lock. -/
inductive PoolOp where
  | acquireFirst
  | acquireRetry
  | acquireCreateFailed
  | releaseOp (cid : Nat) (force : Bool)

/-- Effect of one pool operation on the pool state.  `acquireFirst` is
the first locked attempt of an `acquire` call (with the request-counter
bump), `acquireRetry` a later attempt of the same call (no bump),
`acquireCreateFailed` an `acquire` call whose `create_client` raised
before any bookkeeping happened (only `_total_requests` was bumped). -/
def poolStep (cfg : PoolCfg) (s : PoolState) : PoolOp → PoolState
  | .acquireFirst => (acquireStart cfg s).2
  | .acquireRetry => (tryAcquire cfg s).2
  | .acquireCreateFailed => { s with totalRequests := s.totalRequests + 1 }
  | .releaseOp cid force => release s cid force

/-- Run a sequence of pool operations from the freshly constructed pool. -/
def poolRun (cfg : PoolCfg) (ops : List PoolOp) : PoolState :=
  ops.foldl (poolStep cfg) initPoolState

/-- Strengthened pool invariant used for the induction: the deque is
duplicate-free, disjoint from `in_use`, the creation counter is bounded
by the capacity and bounds the live population, and every live id is
below the fresh-id source. -/
def PoolInv (cfg : PoolCfg) (s : PoolState) : Prop :=
  s.pool.Nodup
  ∧ (∀ c ∈ s.pool, c ∉ s.inUse)
  ∧ s.createdCount ≤ cfg.poolSize
  ∧ s.pool.length + s.inUse.card ≤ s.createdCount
  ∧ (∀ c ∈ s.pool, c < s.nextId)
  ∧ (∀ c ∈ s.inUse, c < s.nextId)

/-- State of one `PooledMCPClient` context-manager wrapper:
its `_released` flag. -/
structure WrapperState where
  released : Bool
deriving DecidableEq

/-- Constructor `PooledMCPClient.__init__`: the wrapper starts not yet
released. -/
def initWrapper : WrapperState := { released := false }

/-- Exit handler `PooledMCPClient.__aexit__(exc_type, exc_val, exc_tb)`:
if the wrapper has not yet released, call `pool.release(client,
force_recreate = (exc_type is not None))` and set `_released = True`;
otherwise do nothing.  `excPresent` models `exc_type is not None` (this
includes `CancelledError`, so the cancellation path takes the same
release).  The third component is the trace of `release` calls
performed, as (client id, force flag) pairs. -/
def aexit (w : WrapperState) (s : PoolState) (cid : Nat) (excPresent : Bool) :
    WrapperState × PoolState × List (Nat × Bool) :=
  if w.released then (w, s, [])
  else ({ released := true }, release s cid excPresent, [(cid, excPresent)])

/-- A one-client pool with its single client borrowed: capacity 1,
client id 0 in use, one creation recorded. -/
def c2state : PoolState :=
  { pool := [], inUse := {0}, createdCount := 1, reusedCount := 0
    totalRequests := 1, disconnected := ∅, nextId := 1 }

/-- Capacity-one pool configuration. -/
def c2cfg : PoolCfg := { poolSize := 1, maxWait := 30 }

/-- The assignment `timeout = timeout or self.max_wait` at the top of
`MCPClientPool.acquire`: a missing timeout and a falsy timeout (`0`,
`0.0`) are both silently replaced by the pool's default `max_wait`. -/
def effectiveTimeout (maxWait : ℚ) : Option ℚ → ℚ
  | none => maxWait
  | some t => if t = 0 then maxWait else t

/-- Possible observable outcomes of the `acquire` waiting loop. -/
inductive AcquireOutcome where
  | ok (cid : Nat)
  | timeoutErr (n : Nat)
  | pending
deriving DecidableEq

/-- The `while True:` loop of `MCPClientPool.acquire` in the situation
the spec's timeout property describes: the available deque stays empty
and no `release` ever runs, so the locked attempt leaves the state `s`
unchanged on every iteration (`tryAcquire cfg s = (.wait, s)` under
exhaustion).  `deadline` is the value `loop.time() + timeout` computed
once before the loop; `clock n` is the event-loop time read at the
`n`-th `elapsed > deadline` check; `fuel` bounds how many iterations we
unroll (`.pending` means the loop has not yet finished within `fuel`
iterations).  The loop raises `TimeoutError` — `.timeoutErr n` — at the
first check whose clock reading strictly exceeds the fixed deadline. -/
def acquireRun (cfg : PoolCfg) (s : PoolState) (deadline : ℚ)
    (clock : Nat → ℚ) : Nat → Nat → AcquireOutcome
  | 0, _ => .pending
  | fuel + 1, n =>
    match tryAcquire cfg s with
    | (.reused cid, _) => .ok cid
    | (.created cid, _) => .ok cid
    | (.wait, _) =>
      if deadline < clock n then .timeoutErr n
      else acquireRun cfg s deadline clock fuel (n + 1)

/-- An MCP server configuration entry as stored in `mode_servers.json`;
only its identity matters to the registry logic, so we keep the name. -/
structure ServerConfig where
  name : String
deriving DecidableEq

/-- The external spec-lookup collaborator
`mode_server_manager.get_server_config(mode, server)`: a mode section
and a server name may yield a configuration. -/
abbrev SpecLookup := String → String → Option ServerConfig

/-- The three mode sections `_create_pool` scans, in source order. -/
def modeSections : List String := ["brainstorm", "analyze", "generate"]

/-- The `for mode in [...]` loop of `MCPPoolManager._create_pool` (and of
`MCPClientManager._create_direct_client`): take the first mode section
that has a configuration for the server. -/
def resolveConfig (lookup : SpecLookup) (server : String) :
    Option ServerConfig :=
  modeSections.findSome? (fun mode => lookup mode server)

/-- State of the `MCPPoolManager` registry: the `pools` dict, as an
association list from server key to pool identity, plus a ghost source
of fresh pool identities (each `MCPClientPool(...)` call builds a new
object). -/
structure ManagerState where
  pools : List (String × Nat)
  nextPoolId : Nat
deriving DecidableEq

/-- Constructor `MCPPoolManager.__init__`: no pools yet. -/
def initManager : ManagerState := { pools := [], nextPoolId := 0 }

/-- The key computation `server_key = ",".join(sorted(mcp_servers))`
from `MCPPoolManager.get_pooled_client`. -/
def serverKey (servers : List String) : String :=
  String.intercalate "," (List.insertionSort (· ≤ ·) servers)

/-- The locked registry section of `MCPPoolManager.get_pooled_client`
together with `_create_pool`: compute the sorted key; if a pool for the
key exists return it; otherwise run `_create_pool`, which resolves
*only the first server of the caller's list* (`mcp_servers[0]`) across
the three mode sections, raises `ValueError` if that lookup fails
(leaving the dict unchanged, since `self.pools[server_key] = pool` only
happens afterwards), and otherwise stores a freshly built pool under the
key.  The subsequent `pool.acquire()` call is modelled separately by the
pool state machine. -/
def getPool (lookup : SpecLookup) (st : ManagerState)
    (servers : List String) : Except String Nat × ManagerState :=
  match st.pools.lookup (serverKey servers) with
  | some pid => (.ok pid, st)
  | none =>
    match servers with
    | [] => (.error "list index out of range", st)
    | first :: _ =>
      match resolveConfig lookup first with
      | none =>
        (.error ("No configuration found for MCP server: " ++ first), st)
      | some _ =>
        (.ok st.nextPoolId,
          { pools := (serverKey servers, st.nextPoolId) :: st.pools
            nextPoolId := st.nextPoolId + 1 })

/-- Spec lookup for the C6 counterexample: only server `"a"` (in the
`brainstorm` section) is resolvable. -/
def c6lookup : SpecLookup :=
  fun mode server =>
    if mode = "brainstorm" ∧ server = "a" then some { name := "a" } else none

/-- One step's result record as built by
`MCPEnabledOrchestrator.execute_all` / `_execute_agent`.  A success dict
has no `skipped` key and no `error` key (both read back as falsy /
absent), so `skipped := false` and `error := none` model it. -/
structure StepResult where
  content : String
  success : Bool
  skipped : Bool
  error : Option String
deriving DecidableEq

/-- The placeholder `content = "", success = False, skipped = True`
recorded for a step that is not run. -/
def skippedResult : StepResult :=
  { content := "", success := false, skipped := true, error := none }

/-- The per-run enable flags read from `generate_flags` in
`execute_all` (`cloudformation` defaults to true, the others to false;
the defaults are irrelevant here because we quantify over the flag
values). -/
structure GenerateFlags where
  cloudformation : Bool
  diagram : Bool
  cost : Bool
deriving DecidableEq

/-- The two caller-supplied artifacts `execute_all` consults when wiring
context between steps.  Python truthiness: a missing key and an empty
string behave identically, so each is a `String` with `""` meaning
absent. -/
structure PipelineInputs where
  existingCf : String
  existingDiagram : String
deriving DecidableEq

/-- The method `MCPEnabledOrchestrator._execute_agent`: run the agent
call for one step and catch any exception.  The fallible prompt-build /
invoke / response-extraction sequence is modelled by `outcome`
(`.ok content` is the extracted text, `.error e` a raised exception).
On success the CloudFormation step additionally post-processes its
content through `_extract_cloudformation_template`, modelled by the
explicit function argument `extractCf` (a pure string-to-string regex
extraction whose internals none of the claims depend on); on failure the
step records `success = False` together with the error, and the
exception does not propagate. -/
def executeAgent (extractCf : String → String) (agentType : String)
    (outcome : Except String String) : StepResult :=
  match outcome with
  | .ok content =>
      { content := if agentType = "cloudformation" then extractCf content
                   else content
        success := true, skipped := false, error := none }
  | .error e =>
      { content := "Error generating " ++ agentType ++ ": " ++ e
        success := false, skipped := false, error := some e }

/-- The three step results of one pipeline run, keyed as in the
`results` dict of `execute_all`. -/
structure PipelineResults where
  cloudformation : StepResult
  diagram : StepResult
  cost : StepResult
deriving DecidableEq

/-- The step sequencing of `MCPEnabledOrchestrator.execute_all` (the
body inside the MCP context manager, after tools were listed).

* Step 1 (CloudFormation) runs iff its flag is set, else the skipped
  placeholder is recorded.
* `cf_content_for_diagram` is the caller-supplied existing template if
  truthy, else step 1's content if step 1 succeeded, else `""`.
* Step 2 (diagram) runs iff its flag is set *and*
  `cf_content_for_diagram` is truthy; otherwise the skipped placeholder
  is recorded.
* `cf_content_for_cost` / `diagram_content_for_cost` are computed the
  same way (they only feed prompt context).
* Step 3 (cost) runs iff its flag is set (no content gate).

`invoke agentType` is the outcome of that step's agent call.  The
returned trace lists the agent types actually invoked, in order.  The
assembly of summaries into the next step's prompt inputs is context
plumbing that does not affect which steps run or their recorded
results, and is not modelled. -/
def executeAll (extractCf : String → String) (flags : GenerateFlags)
    (inputs : PipelineInputs) (invoke : String → Except String String) :
    PipelineResults × List String :=
  let step1 :=
    if flags.cloudformation then
      (executeAgent extractCf "cloudformation" (invoke "cloudformation"),
        ["cloudformation"])
    else (skippedResult, [])
  let r1 := step1.1
  let cfContentForDiagram :=
    if inputs.existingCf ≠ "" then inputs.existingCf
    else if r1.success then r1.content else ""
  let step2 :=
    if flags.diagram ∧ cfContentForDiagram ≠ "" then
      (executeAgent extractCf "diagram" (invoke "diagram"), ["diagram"])
    else (skippedResult, [])
  let r2 := step2.1
  let cfContentForCost :=
    if inputs.existingCf ≠ "" then inputs.existingCf
    else if r1.success then r1.content else ""
  let diagramContentForCost :=
    if inputs.existingDiagram ≠ "" then inputs.existingDiagram
    else if r2.success then r2.content else ""
  let step3 :=
    if flags.cost then
      (executeAgent extractCf "cost" (invoke "cost"), ["cost"])
    else (skippedResult, [])
  ({ cloudformation := r1, diagram := r2, cost := step3.1 },
    step1.2 ++ step2.2 ++ step3.2)

/-- The agent-call behaviour of the C3 counterexample run: the
CloudFormation agent call raises, the other agent calls succeed. -/
def c3invoke : String → Except String String :=
  fun agentType =>
    if agentType = "cloudformation" then .error "boom" else .ok "out"

/-- Strip an exact literal off the front of a character list, returning
the remainder (the building block for the literal parts of the regexes
in `_summarize_output`). -/
def stripLit : List Char → List Char → Option (List Char)
  | [], l => some l
  | _ :: _, [] => none
  | p :: ps, c :: cs => if c = p then stripLit ps cs else none

/-- Case-insensitive variant of `stripLit` (pattern given in lower
case), for the `re.IGNORECASE` pattern. -/
def stripLitCI : List Char → List Char → Option (List Char)
  | [], l => some l
  | _ :: _, [] => none
  | p :: ps, c :: cs => if c.toLower = p then stripLitCI ps cs else none

/-- Match of the Python regex `<text[^>]*>([^<]+)</text>` anchored at
the start of `l`, returning the captured group and the remainder after
the match.  The greedy sub-patterns are deterministic here: `[^>]*`
runs to the first `>`, and `([^<]+)` runs to the first `<`, which
must start the literal `</text>`. -/
def matchTextAt (l : List Char) : Option (List Char × List Char) :=
  match stripLit "<text".data l with
  | none => none
  | some r1 =>
    match stripLit ['>'] (r1.dropWhile (fun c => c ≠ '>')) with
    | none => none
    | some r3 =>
      let cap := r3.takeWhile (fun c => c ≠ '<')
      if cap = [] then none
      else
        match stripLit "</text>".data (r3.dropWhile (fun c => c ≠ '<')) with
        | none => none
        | some rest => some (cap, rest)

/-- Fuel-indexed scan implementing `re.findall` for the `<text>` regex:
try the anchored match at each position, and on a match continue after
its end (non-overlapping, left to right).  Each step consumes at least
one character, so fuel `l.length` (see `findTexts`) always suffices. -/
def findTextsAux : Nat → List Char → List (List Char)
  | 0, _ => []
  | _ + 1, [] => []
  | fuel + 1, c :: cs =>
    match matchTextAt (c :: cs) with
    | some (cap, rest) => cap :: findTextsAux fuel rest
    | none => findTextsAux fuel cs

/-- The call `re.findall(r'<text[^>]*>([^<]+)</text>', content)` of
`_summarize_output`. -/
def findTexts (l : List Char) : List (List Char) :=
  findTextsAux l.length l

/-- Match of the Python regex `rect|circle|polygon` (with
`re.IGNORECASE`) anchored at the start of `l`, alternatives tried left
to right. -/
def matchShapeAt (l : List Char) : Option (List Char) :=
  match stripLitCI "rect".data l with
  | some r => some r
  | none =>
    match stripLitCI "circle".data l with
    | some r => some r
    | none => stripLitCI "polygon".data l

/-- Fuel-indexed counting scan for the shape regex (`re.findall` length
only). -/
def countShapesAux : Nat → List Char → Nat
  | 0, _ => 0
  | _ + 1, [] => 0
  | fuel + 1, c :: cs =>
    match matchShapeAt (c :: cs) with
    | some rest => 1 + countShapesAux fuel rest
    | none => countShapesAux fuel cs

/-- The count `len(re.findall(r'rect|circle|polygon', content,
re.IGNORECASE))` of `_summarize_output`. -/
def countShapes (l : List Char) : Nat :=
  countShapesAux l.length l

/-- Python's `sep.join(parts)`. -/
def pyJoin (sep : String) : List String → String
  | [] => ""
  | [s] => s
  | s :: s' :: rest => s ++ sep ++ pyJoin sep (s' :: rest)

/-- The `diagram` branch of `MCPEnabledOrchestrator._summarize_output`:
collect the `<text>` element captures, keep 15 distinct ones
(CPython's `list(set(texts))` order is unspecified; `List.dedup`
stands in for it, and none of the proved properties depend on which
distinct captures survive), count the shape keyword occurrences, and
prepend the first 300 characters (newlines replaced by spaces) as the
overview; the lines are joined with newlines, with `content[:500]` as
the (unreachable) fallback for an empty line list. -/
def summarizeDiagram (content : String) : String :=
  let texts := findTexts content.data
  let uniqueTexts := texts.dedup.take 15
  let componentLines :=
    if texts = [] then ([] : List String)
    else ["Components: "
            ++ pyJoin ", " (uniqueTexts.map (fun t => String.mk t))]
  let rectCount := countShapes content.data
  let summaryLines :=
    componentLines
      ++ ["Contains " ++ toString rectCount ++ " visual elements",
          "Diagram Overview: "
            ++ String.mk ((content.data.take 300).map
                (fun c => if c = '\n' then ' ' else c))]
  if summaryLines = [] then String.mk (content.data.take 500)
  else pyJoin "\n" summaryLines

/-- The dispatcher `MCPEnabledOrchestrator._summarize_output(content,
output_type)`: empty content yields `""`; the `cloudformation` kind is
summarised through `_format_cloudformation_summary ∘
_parse_cloudformation_template`, a YAML-template parse that depends on
the external `yaml` library and is abstracted as the function argument
`cfSummarize` (the theorems below hold for *every* instantiation of
it); the `diagram` kind uses `summarizeDiagram`; every other kind is
truncated to `content[:1000]`. -/
def summarizeOutput (cfSummarize : String → String)
    (content outputType : String) : String :=
  if content = "" then ""
  else if outputType = "cloudformation" then cfSummarize content
  else if outputType = "diagram" then summarizeDiagram content
  else String.mk (content.data.take 1000)

/-- The C8 counterexample family: an SVG-like input holding one `<text>`
element whose body is `n` copies of `'a'`. -/
def bigTextInput (n : Nat) : List Char :=
  "<text>".data ++ (List.replicate n 'a' ++ "</text>".data)

end SolutionBuilder

namespace SolutionBuilder

theorem poolInv_init (cfg : PoolCfg) : PoolInv cfg initPoolState := by
  simp [PoolInv, initPoolState]

theorem poolInv_tryAcquire (cfg : PoolCfg) (s : PoolState) (h : PoolInv cfg s) :
    PoolInv cfg (tryAcquire cfg s).2 := by
  obtain ⟨hnd, hdis, hcap, hcnt, hfp, hfu⟩ := h
  unfold tryAcquire
  match hp : s.pool with
  | c :: rest =>
    rw [hp] at hnd hdis hcnt hfp
    refine ⟨hnd.of_cons, ?_, hcap, ?_, ?_, ?_⟩
    · intro x hx
      simp only [Finset.mem_insert, not_or]
      exact ⟨fun he => (List.nodup_cons.mp hnd).1 (he ▸ hx),
             hdis x (List.mem_cons_of_mem _ hx)⟩
    · have hc : c ∉ s.inUse := hdis c (List.mem_cons_self _ _)
      simp only [Finset.card_insert_of_not_mem hc]
      simpa [Nat.add_comm, Nat.add_left_comm, Nat.add_assoc] using hcnt
    · exact fun x hx => hfp x (List.mem_cons_of_mem _ hx)
    · intro x hx
      rcases Finset.mem_insert.mp hx with rfl | hx
      · exact hfp x (List.mem_cons_self _ _)
      · exact hfu x hx
  | [] =>
    by_cases hlt : s.createdCount < cfg.poolSize
    · simp only [hlt, if_pos]
      have hnotin : s.nextId ∉ s.inUse := fun h => lt_irrefl _ (hfu _ h)
      refine ⟨by simp [hp], by simp [hp], hlt, ?_, by simp [hp], ?_⟩
      · dsimp only
        rw [hp] at hcnt
        simp only [List.length_nil, Nat.zero_add,
          Finset.card_insert_of_not_mem hnotin] at *
        omega
      · intro x hx
        rcases Finset.mem_insert.mp hx with rfl | hx
        · exact Nat.lt_succ_self _
        · exact Nat.lt_succ_of_lt (hfu x hx)
    · simp only [hlt, if_neg, not_false_iff]
      exact ⟨hnd, hdis, hcap, hcnt, hfp, hfu⟩

theorem poolInv_release (cfg : PoolCfg) (s : PoolState) (cid : Nat)
    (force : Bool) (h : PoolInv cfg s) : PoolInv cfg (release s cid force) := by
  obtain ⟨hnd, hdis, hcap, hcnt, hfp, hfu⟩ := h
  unfold release
  by_cases hin : cid ∉ s.inUse
  · simpa [hin] using ⟨hnd, hdis, hcap, hcnt, hfp, hfu⟩
  · push_neg at hin
    have hcard : (s.inUse.erase cid).card + 1 = s.inUse.card :=
      Finset.card_erase_add_one hin
    cases force with
    | true =>
      simp only [hin, not_true, if_neg, not_false_iff, if_pos]
      refine ⟨hnd, ?_, hcap, ?_, hfp, ?_⟩
      · exact fun c hc => fun hmem => hdis c hc (Finset.mem_of_mem_erase hmem)
      · show s.pool.length + (s.inUse.erase cid).card ≤ s.createdCount
        omega
      · exact fun c hc => hfu c (Finset.mem_of_mem_erase hc)
    | false =>
      simp only [hin, not_true, if_neg, not_false_iff, if_pos, Bool.false_eq_true]
      refine ⟨?_, ?_, hcap, ?_, ?_, ?_⟩
      · refine List.Nodup.append hnd (List.nodup_singleton _) ?_
        intro x hx hx'
        rcases List.mem_singleton.mp hx' with rfl
        exact hdis x hx hin
      · intro c hc
        rcases List.mem_append.mp hc with hc | hc
        · exact fun hmem => hdis c hc (Finset.mem_of_mem_erase hmem)
        · rcases List.mem_singleton.mp hc with rfl
          exact Finset.not_mem_erase _ _
      · show (s.pool ++ [cid]).length + (s.inUse.erase cid).card
            ≤ s.createdCount
        simp only [List.length_append, List.length_singleton]
        omega
      · intro c hc
        rcases List.mem_append.mp hc with hc | hc
        · exact hfp c hc
        · rcases List.mem_singleton.mp hc with rfl
          exact hfu c hin
      · exact fun c hc => hfu c (Finset.mem_of_mem_erase hc)

theorem poolInv_step (cfg : PoolCfg) (s : PoolState) (op : PoolOp)
    (h : PoolInv cfg s) : PoolInv cfg (poolStep cfg s op) := by
  cases op with
  | acquireFirst =>
    have : PoolInv cfg { s with totalRequests := s.totalRequests + 1 } := by
      obtain ⟨a, b, c, d, e, f⟩ := h; exact ⟨a, b, c, d, e, f⟩
    exact poolInv_tryAcquire cfg _ this
  | acquireRetry => exact poolInv_tryAcquire cfg s h
  | acquireCreateFailed =>
    obtain ⟨a, b, c, d, e, f⟩ := h; exact ⟨a, b, c, d, e, f⟩
  | releaseOp cid force => exact poolInv_release cfg s cid force h

theorem poolInv_run (cfg : PoolCfg) (ops : List PoolOp) :
    PoolInv cfg (poolRun cfg ops) := by
  have main : ∀ (ops : List PoolOp) (s : PoolState), PoolInv cfg s →
      PoolInv cfg (ops.foldl (poolStep cfg) s) := by
    intro ops
    induction ops with
    | nil => intro s hs; exact hs
    | cons op rest ih =>
      intro s hs
      exact ih _ (poolInv_step cfg s op hs)
  exact main ops initPoolState (poolInv_init cfg)

/-- C1: exiting the `PooledMCPClient` scope performs exactly one
`release` of the borrowed client on every exit path — the release trace
of the first `__aexit__` is exactly `[(cid, excPresent)]`, so the force
flag equals the presence of an exception — and a second `__aexit__` of
the same wrapper (with any exception state) performs no further release
and leaves the pool untouched. -/
theorem pooled_wrapper_releases_exactly_once (s : PoolState) (cid : Nat)
    (exc exc' : Bool) :
    (aexit initWrapper s cid exc).2.2 = [(cid, exc)]
    ∧ (aexit initWrapper s cid exc).2.1 = release s cid exc
    ∧ (aexit initWrapper s cid exc).1.released = true
    ∧ (aexit (aexit initWrapper s cid exc).1
        (aexit initWrapper s cid exc).2.1 cid exc').2.2 = []
    ∧ (aexit (aexit initWrapper s cid exc).1
        (aexit initWrapper s cid exc).2.1 cid exc').2.1
        = (aexit initWrapper s cid exc).2.1 := by
  simp [aexit, initWrapper]

/-- C4: after any sequence of acquire/release operations starting from a
fresh pool, no client id is both in the available deque and in the
in-use set, the creation counter never exceeds the capacity `pool_size`,
and the available population plus the in-use population never exceeds
the creation counter. -/
theorem pool_invariants_hold (cfg : PoolCfg) (ops : List PoolOp) :
    (∀ c ∈ (poolRun cfg ops).pool, c ∉ (poolRun cfg ops).inUse)
    ∧ (poolRun cfg ops).createdCount ≤ cfg.poolSize
    ∧ (poolRun cfg ops).pool.length + (poolRun cfg ops).inUse.card
        ≤ (poolRun cfg ops).createdCount := by
  obtain ⟨-, h1, h2, h3, -, -⟩ := poolInv_run cfg ops
  exact ⟨h1, h2, h3⟩

/-- C2 counterexample: releasing the only client of a full capacity-one
pool with `force_recreate = True` disconnects it and does not return it
to the deque, but the `_created_count` counter stays at 1 — it is *not*
decremented — so a subsequent acquire attempt cannot construct a fresh
replacement and is forced to wait: capacity is permanently shrunk,
contrary to the claim. -/
theorem release_force_discard_counterexample :
    (release c2state 0 true).createdCount = 1
    ∧ (release c2state 0 true).pool = []
    ∧ 0 ∈ (release c2state 0 true).disconnected
    ∧ (tryAcquire c2cfg (release c2state 0 true)).1 = .wait := by
  decide

/-- C2 as amended: for every client in the in-use set, releasing it with
`force_recreate = True` removes it from the in-use set, disconnects it,
does not return it to the available deque, and leaves the `created`
counter unchanged — so the pool's capacity to build replacements is
permanently reduced. -/
theorem release_force_discard (s : PoolState) (cid : Nat)
    (hin : cid ∈ s.inUse) :
    (release s cid true).inUse = s.inUse.erase cid
    ∧ (release s cid true).pool = s.pool
    ∧ (release s cid true).disconnected = insert cid s.disconnected
    ∧ (release s cid true).createdCount = s.createdCount := by
  simp [release, hin]

/-- Witness for `release_force_discard` at the concrete one-client
pool. -/
theorem release_force_discard_witness :
    (release c2state 0 true).createdCount = c2state.createdCount :=
  (release_force_discard c2state 0 (by decide)).2.2.2

/-- C7: with an empty available deque and a borrowed client `cid`,
releasing it with `force_recreate = False` and then acquiring again
returns the same client id as a *reuse*: the reused counter is
incremented, the created counter is not, and the client is never
disconnected in between. -/
theorem release_then_reacquire (cfg : PoolCfg) (s : PoolState) (cid : Nat)
    (hpool : s.pool = []) (hin : cid ∈ s.inUse)
    (hdis : cid ∉ s.disconnected) :
    (acquireStart cfg (release s cid false)).1 = .reused cid
    ∧ (acquireStart cfg (release s cid false)).2.reusedCount
        = s.reusedCount + 1
    ∧ (acquireStart cfg (release s cid false)).2.createdCount
        = s.createdCount
    ∧ cid ∉ (release s cid false).disconnected
    ∧ cid ∉ (acquireStart cfg (release s cid false)).2.disconnected
    ∧ cid ∈ (acquireStart cfg (release s cid false)).2.inUse := by
  simp [release, hin, hpool, acquireStart, tryAcquire, hdis]

/-- Witness for `release_then_reacquire` at the concrete one-client
pool. -/
theorem release_then_reacquire_witness :
    (acquireStart c2cfg (release c2state 0 false)).1 = .reused 0 :=
  (release_then_reacquire c2cfg c2state 0 (by decide) (by decide)
    (by decide)).1

/-- Under exhaustion (empty deque, creation counter at capacity) the
locked attempt yields the wait path and leaves the state unchanged. -/
theorem tryAcquire_exhausted (cfg : PoolCfg) (s : PoolState)
    (hpool : s.pool = []) (hfull : cfg.poolSize ≤ s.createdCount) :
    tryAcquire cfg s = (.wait, s) := by
  unfold tryAcquire
  rw [hpool]
  simp [Nat.not_lt.mpr hfull]

/-- Helper: if every clock reading from `start` up to `n` is within the
deadline and `clock n` exceeds it, the loop with fuel `n - start + 1`
raises `TimeoutError` exactly at check `n`. -/
theorem acquireRun_timeoutErr (cfg : PoolCfg) (s : PoolState)
    (deadline : ℚ) (clock : Nat → ℚ)
    (hpool : s.pool = []) (hfull : cfg.poolSize ≤ s.createdCount)
    (n : Nat) (hn : deadline < clock n) :
    ∀ k start, start + k = n → (∀ m, start ≤ m → m < n → ¬ deadline < clock m) →
      acquireRun cfg s deadline clock (k + 1) start = .timeoutErr n := by
  intro k
  induction k with
  | zero =>
    intro start hstart _
    simp only [Nat.add_zero] at hstart
    subst hstart
    unfold acquireRun
    rw [tryAcquire_exhausted cfg s hpool hfull]
    simp [hn]
  | succ k ih =>
    intro start hstart hbelow
    have hlt : start < n := by omega
    unfold acquireRun
    rw [tryAcquire_exhausted cfg s hpool hfull]
    simp only [hbelow start le_rfl hlt, if_neg, not_false_iff]
    exact ih (start + 1) (by omega) (fun m hm hm' => hbelow m (by omega) hm')

/-- C5: on a pool whose deque stays empty and whose creation counter
already equals the capacity, with a positive explicit timeout `T`, the
`acquire` loop terminates as soon as the event-loop clock passes the
deadline: there are a fuel bound and a check index `n` at which it
raises `TimeoutError`, the deadline is the fixed value
`t₀ + effectiveTimeout max_wait (some T) = t₀ + T` computed when the
call began (never reset by retries), every earlier check was within the
deadline, and check `n` is the first to exceed it.  The hypothesis
`hclock` says only that event-loop time eventually passes the deadline,
which is how real elapsed time behaves. -/
theorem acquire_timeout_terminates (cfg : PoolCfg) (s : PoolState)
    (t₀ T : ℚ) (clock : Nat → ℚ) (hT : 0 < T)
    (hpool : s.pool = []) (hfull : s.createdCount = cfg.poolSize)
    (hclock : ∃ k, t₀ + T < clock k) :
    effectiveTimeout cfg.maxWait (some T) = T
    ∧ ∃ fuel n,
        acquireRun cfg s (t₀ + effectiveTimeout cfg.maxWait (some T))
          clock fuel 0 = .timeoutErr n
        ∧ t₀ + T < clock n
        ∧ ∀ m < n, clock m ≤ t₀ + T := by
  have hTne : T ≠ 0 := ne_of_gt hT
  have heff : effectiveTimeout cfg.maxWait (some T) = T := by
    simp [effectiveTimeout, hTne]
  refine ⟨heff, ?_⟩
  rw [heff]
  have hn : t₀ + T < clock (Nat.find hclock) := Nat.find_spec hclock
  have hmin : ∀ m < Nat.find hclock, ¬ t₀ + T < clock m :=
    fun m hm => Nat.find_min hclock hm
  set n := Nat.find hclock
  refine ⟨n + 1, n, ?_, hn, ?_⟩
  · exact acquireRun_timeoutErr cfg s (t₀ + T) clock hpool
      (le_of_eq hfull.symm) n hn n 0 (by omega)
      (fun m _ hm => hmin m hm)
  · intro m hm
    exact le_of_not_lt (hmin m hm)

/-- Witness for `acquire_timeout_terminates`: the full capacity-one pool
with timeout 1 and the integer-valued clock. -/
theorem acquire_timeout_terminates_witness :
    effectiveTimeout c2cfg.maxWait (some 1) = 1
    ∧ ∃ fuel n,
        acquireRun c2cfg c2state (0 + effectiveTimeout c2cfg.maxWait (some 1))
          (fun n => (n : ℚ)) fuel 0 = .timeoutErr n
        ∧ (0 : ℚ) + 1 < (n : ℚ)
        ∧ ∀ m < n, (m : ℚ) ≤ (0 : ℚ) + 1 :=
  acquire_timeout_terminates c2cfg c2state 0 1 (fun n => (n : ℚ))
    (by norm_num) (by decide) (by decide) ⟨2, by norm_num⟩

/-- C10: an explicit `acquire(timeout=0)` (a falsy timeout) does not
fail immediately — the effective timeout silently becomes the default
`max_wait`, the first loop iteration does not raise (it is still
pending) as long as the clock has not passed `t₀ + max_wait`, and the
`TimeoutError` only comes once the clock passes that default
deadline. -/
theorem acquire_zero_timeout_waits (cfg : PoolCfg) (s : PoolState)
    (t₀ : ℚ) (clock : Nat → ℚ)
    (hpool : s.pool = []) (hfull : s.createdCount = cfg.poolSize)
    (h0 : clock 0 ≤ t₀ + cfg.maxWait) :
    effectiveTimeout cfg.maxWait (some 0) = cfg.maxWait
    ∧ acquireRun cfg s (t₀ + effectiveTimeout cfg.maxWait (some 0))
        clock 1 0 = .pending
    ∧ ((∃ k, t₀ + cfg.maxWait < clock k) → ∃ fuel n,
        acquireRun cfg s (t₀ + effectiveTimeout cfg.maxWait (some 0))
          clock fuel 0 = .timeoutErr n) := by
  have heff : effectiveTimeout cfg.maxWait (some 0) = cfg.maxWait := by
    simp [effectiveTimeout]
  refine ⟨heff, ?_, ?_⟩
  · rw [heff]
    unfold acquireRun
    rw [tryAcquire_exhausted cfg s hpool (le_of_eq hfull.symm)]
    simp [not_lt.mpr h0]
    rfl
  · rintro ⟨k, hk⟩
    rw [heff]
    have hex : ∃ k, t₀ + cfg.maxWait < clock k := ⟨k, hk⟩
    refine ⟨Nat.find hex + 1, Nat.find hex, ?_⟩
    exact acquireRun_timeoutErr cfg s (t₀ + cfg.maxWait) clock hpool
      (le_of_eq hfull.symm) (Nat.find hex) (Nat.find_spec hex)
      (Nat.find hex) 0 (by omega)
      (fun m _ hm => Nat.find_min hex hm)

/-- Witness for `acquire_zero_timeout_waits`: the full capacity-one pool
with the integer-valued clock. -/
theorem acquire_zero_timeout_waits_witness :
    effectiveTimeout c2cfg.maxWait (some 0) = c2cfg.maxWait
    ∧ acquireRun c2cfg c2state (0 + effectiveTimeout c2cfg.maxWait (some 0))
        (fun n => (n : ℚ)) 1 0 = .pending
    ∧ ((∃ k : Nat, (0 : ℚ) + c2cfg.maxWait < (k : ℚ)) → ∃ fuel n,
        acquireRun c2cfg c2state (0 + effectiveTimeout c2cfg.maxWait (some 0))
          (fun n => (n : ℚ)) fuel 0 = .timeoutErr n) :=
  acquire_zero_timeout_waits c2cfg c2state 0 (fun n => (n : ℚ))
    (by decide) (by decide) (by norm_num [c2cfg])

/-- Permuted server lists produce the same canonical key. -/
theorem serverKey_perm (s₁ s₂ : List String) (h : s₁.Perm s₂) :
    serverKey s₁ = serverKey s₂ := by
  unfold serverKey
  congr 1
  refine List.eq_of_perm_of_sorted ?_
    (List.sorted_insertionSort _ s₁) (List.sorted_insertionSort _ s₂)
  exact ((List.perm_insertionSort _ s₁).trans h).trans
    (List.perm_insertionSort _ s₂).symm

/-- C9: registry idempotence and order-independence — if a request for
`s₁` succeeded, a second request with any permutation `s₂` of `s₁`
returns the very same pool identity and leaves the registry unchanged. -/
theorem getPool_idempotent_perm (lookup : SpecLookup) (st st' : ManagerState)
    (pid : Nat) (s₁ s₂ : List String) (hperm : s₁.Perm s₂)
    (h1 : getPool lookup st s₁ = (.ok pid, st')) :
    getPool lookup st' s₂ = (.ok pid, st') := by
  have hkey : serverKey s₂ = serverKey s₁ := (serverKey_perm s₁ s₂ hperm).symm
  unfold getPool at h1 ⊢
  rw [hkey]
  cases hl : st.pools.lookup (serverKey s₁) with
  | some pid' =>
    rw [hl] at h1
    simp only [Prod.mk.injEq, Except.ok.injEq] at h1
    obtain ⟨rfl, rfl⟩ := h1
    rw [hl]
  | none =>
    rw [hl] at h1
    cases s₁ with
    | nil => simp at h1
    | cons first rest =>
      dsimp only at h1
      cases hr : resolveConfig lookup first with
      | none => rw [hr] at h1; simp at h1
      | some cfg =>
        rw [hr] at h1
        simp only [Prod.mk.injEq, Except.ok.injEq] at h1
        obtain ⟨rfl, rfl⟩ := h1
        simp [List.lookup]

/-- Witness for `getPool_idempotent_perm`: two servers requested in the
two opposite orders map to one pool. -/
theorem getPool_idempotent_perm_witness :
    getPool (fun _ _ => some { name := "a" })
      { pools := [(serverKey ["b", "a"], 0)], nextPoolId := 1 } ["a", "b"]
    = (.ok 0, { pools := [(serverKey ["b", "a"], 0)], nextPoolId := 1 }) :=
  getPool_idempotent_perm (fun _ _ => some { name := "a" }) initManager
    { pools := [(serverKey ["b", "a"], 0)], nextPoolId := 1 } 0
    ["b", "a"] ["a", "b"] (by decide) (by rfl)

/-- C6 counterexample: for the two-server set `["a", "b"]` whose first
member resolves but whose second member is unresolvable, the first
request does *not* fail — `_create_pool` resolves only
`mcp_servers[0]` — and a pool is stored for the key, contrary to the
claim that any unresolvable member fails the request with no pool
stored. -/
theorem getPool_first_member_only_counterexample :
    resolveConfig c6lookup "b" = none
    ∧ (getPool c6lookup initManager ["a", "b"]).1 = .ok 0
    ∧ (getPool c6lookup initManager ["a", "b"]).2.pools.lookup
        (serverKey ["a", "b"]) = some 0 := by
  refine ⟨rfl, rfl, ?_⟩
  simp [getPool, serverKey, initManager, List.lookup]

/-- C6 as amended: on the first request for a key (no pool stored yet),
the registry resolves only the *first* member of the caller's server
list across the three mode sections; it fails with the
`No configuration found` `ValueError` if and only if that first member
is unresolvable, and on failure the registry state is unchanged (no pool
is stored for the key); when the first member resolves, the request
succeeds and stores a fresh pool under the key regardless of whether the
other members are resolvable. -/
theorem getPool_first_request (lookup : SpecLookup) (st : ManagerState)
    (first : String) (rest : List String)
    (habsent : st.pools.lookup (serverKey (first :: rest)) = none) :
    (resolveConfig lookup first = none →
      getPool lookup st (first :: rest)
        = (.error ("No configuration found for MCP server: " ++ first), st))
    ∧ (∀ cfg, resolveConfig lookup first = some cfg →
      getPool lookup st (first :: rest)
        = (.ok st.nextPoolId,
            { pools := (serverKey (first :: rest), st.nextPoolId) :: st.pools
              nextPoolId := st.nextPoolId + 1 })) := by
  constructor
  · intro hnone
    unfold getPool
    rw [habsent]
    simp [hnone]
  · intro cfg hsome
    unfold getPool
    rw [habsent]
    simp [hsome]

/-- Witness for `getPool_first_request` at the concrete lookup of the
counterexample: the unresolvable first member `"b"` fails the request. -/
theorem getPool_first_request_witness :
    getPool c6lookup initManager ["b", "a"]
      = (.error ("No configuration found for MCP server: " ++ "b"),
         initManager) :=
  (getPool_first_request c6lookup initManager "b" ["a"] rfl).1 rfl

/-- C3 counterexample: with all three steps enabled, no caller-supplied
artifacts, and a failing CloudFormation agent call, the diagram agent
call is *not* executed (whatever `_extract_cloudformation_template`
does): step 2 is gated on a truthy CloudFormation content and is
recorded as the skipped placeholder, contrary to the claim that steps 2
and 3 both still execute their agent calls. -/
theorem pipeline_step1_failure_counterexample :
    ¬ ∃ extractCf : String → String,
      "diagram" ∈ (executeAll extractCf
        { cloudformation := true, diagram := true, cost := true }
        { existingCf := "", existingDiagram := "" } c3invoke).2 := by
  rintro ⟨extractCf, hmem⟩
  simp [executeAll, executeAgent, c3invoke, skippedResult] at hmem

/-- C3 as amended: in a run with all three steps enabled whose
CloudFormation agent call fails, the failure is caught and recorded in
step 1's result (`success = false`, not skipped, with the error), the
run is not aborted and the cost agent call still executes; the diagram
agent call executes only when the caller supplied an existing
CloudFormation template — with no existing template step 2 is recorded
as the `{skipped: true}` placeholder without invoking its agent call. -/
theorem pipeline_step1_failure_degradation (extractCf : String → String)
    (invoke : String → Except String String) (flags : GenerateFlags)
    (inputs : PipelineInputs) (e : String)
    (hcf : flags.cloudformation = true) (hd : flags.diagram = true)
    (hc : flags.cost = true) (hfail : invoke "cloudformation" = .error e) :
    (executeAll extractCf flags inputs invoke).1.cloudformation.success = false
    ∧ (executeAll extractCf flags inputs invoke).1.cloudformation.skipped
        = false
    ∧ (executeAll extractCf flags inputs invoke).1.cloudformation.error
        = some e
    ∧ "cost" ∈ (executeAll extractCf flags inputs invoke).2
    ∧ (inputs.existingCf = "" →
        (executeAll extractCf flags inputs invoke).1.diagram = skippedResult
        ∧ "diagram" ∉ (executeAll extractCf flags inputs invoke).2)
    ∧ (inputs.existingCf ≠ "" →
        "diagram" ∈ (executeAll extractCf flags inputs invoke).2) := by
  by_cases hex : inputs.existingCf = ""
  · simp [executeAll, executeAgent, hcf, hd, hc, hfail, hex, skippedResult]
  · simp [executeAll, executeAgent, hcf, hd, hc, hfail, hex, skippedResult]

/-- Witness for `pipeline_step1_failure_degradation` at the concrete
counterexample run. -/
theorem pipeline_step1_failure_degradation_witness :
    (executeAll (fun s => s)
      { cloudformation := true, diagram := true, cost := true }
      { existingCf := "", existingDiagram := "" } c3invoke).1.cloudformation.success
      = false :=
  (pipeline_step1_failure_degradation (fun s => s) c3invoke
    { cloudformation := true, diagram := true, cost := true }
    { existingCf := "", existingDiagram := "" } "boom"
    rfl rfl rfl rfl).1

theorem stripLit_length : ∀ (p l r : List Char),
    stripLit p l = some r → r.length + p.length = l.length := by
  intro p
  induction p with
  | nil =>
    intro l r h
    simp only [stripLit, Option.some.injEq] at h
    subst h
    simp
  | cons p ps ih =>
    intro l r h
    cases l with
    | nil => simp [stripLit] at h
    | cons c cs =>
      simp only [stripLit] at h
      by_cases hc : c = p
      · rw [if_pos hc] at h
        have := ih cs r h
        simp only [List.length_cons]
        omega
      · rw [if_neg hc] at h
        cases h

theorem stripLit_append : ∀ (p l : List Char), stripLit p (p ++ l) = some l := by
  intro p
  induction p with
  | nil => intro l; simp [stripLit]
  | cons p ps ih => intro l; simp [stripLit, ih]

theorem takeWhile_replicate_append (p : Char → Bool) (a : Char)
    (hp : p a = true) (n : Nat) (l : List Char) :
    (List.replicate n a ++ l).takeWhile p
      = List.replicate n a ++ l.takeWhile p := by
  induction n with
  | zero => simp
  | succ n ih => simp [List.replicate_succ, List.takeWhile_cons, hp, ih]

theorem dropWhile_replicate_append (p : Char → Bool) (a : Char)
    (hp : p a = true) (n : Nat) (l : List Char) :
    (List.replicate n a ++ l).dropWhile p = l.dropWhile p := by
  induction n with
  | zero => simp
  | succ n ih => simp [List.replicate_succ, List.dropWhile_cons, hp, ih]

/-- Evaluation of the anchored `<text>` regex match on the
counterexample family: the whole capture is the `n`-character body. -/
theorem matchTextAt_bigTextInput (n : Nat) (hn : 0 < n) :
    matchTextAt (bigTextInput n) = some (List.replicate n 'a', []) := by
  have hshape : bigTextInput n
      = "<text".data ++ ('>' :: (List.replicate n 'a' ++ "</text>".data)) := by
    simp [bigTextInput]
  have hpa : (fun c => decide (c ≠ '<')) 'a' = true := by decide
  have h2 : List.dropWhile (fun c => c ≠ '>')
      ('>' :: (List.replicate n 'a' ++ "</text>".data))
      = '>' :: (List.replicate n 'a' ++ "</text>".data) := by
    simp [List.dropWhile_cons]
  have h3 : stripLit ['>'] ('>' :: (List.replicate n 'a' ++ "</text>".data))
      = some (List.replicate n 'a' ++ "</text>".data) := by
    simp [stripLit]
  have h4 : (List.replicate n 'a' ++ "</text>".data).takeWhile
      (fun c => c ≠ '<') = List.replicate n 'a' := by
    rw [takeWhile_replicate_append _ 'a' hpa]
    simp [List.takeWhile_cons]
  have h5 : (List.replicate n 'a' ++ "</text>".data).dropWhile
      (fun c => c ≠ '<') = "</text>".data := by
    rw [dropWhile_replicate_append _ 'a' hpa]
    simp [List.dropWhile_cons]
  have hne : List.replicate n 'a' ≠ [] := by
    cases n with
    | zero => omega
    | succ m => simp [List.replicate_succ]
  have h6 : stripLit "</text>".data "</text>".data = some [] := by
    simpa using stripLit_append "</text>".data []
  unfold matchTextAt
  rw [hshape, stripLit_append]
  dsimp only
  rw [h2, h3]
  dsimp only
  rw [h4, h5, if_neg hne, h6]

theorem findTextsAux_nil : ∀ fuel, findTextsAux fuel [] = [] := by
  intro fuel
  cases fuel with
  | zero => rfl
  | succ f => rfl

/-- Evaluation of `re.findall` on the counterexample family: exactly one
capture, the `n`-character body. -/
theorem findTexts_bigTextInput (n : Nat) (hn : 0 < n) :
    findTexts (bigTextInput n) = [List.replicate n 'a'] := by
  have hshape : bigTextInput n
      = '<' :: ("text>".data ++ (List.replicate n 'a' ++ "</text>".data)) := by
    simp [bigTextInput]
  unfold findTexts
  rw [hshape]
  simp only [List.length_cons]
  simp only [findTextsAux]
  rw [← hshape, matchTextAt_bigTextInput n hn]
  simp [findTextsAux_nil]

/-- The shape of the diagram-kind digest when the text scan yields a
single capture. -/
theorem summarizeDiagram_single_capture (content : String) (cap : List Char)
    (h : findTexts content.data = [cap]) :
    summarizeDiagram content
      = pyJoin "\n"
          (("Components: " ++ String.mk cap)
            :: ["Contains " ++ toString (countShapes content.data)
                  ++ " visual elements",
                "Diagram Overview: "
                  ++ String.mk ((content.data.take 300).map
                      (fun c => if c = '\n' then ' ' else c))]) := by
  unfold summarizeDiagram
  rw [h]
  simp [pyJoin]

theorem pyJoin_cons_length_ge (sep a : String) (rest : List String) :
    a.length ≤ (pyJoin sep (a :: rest)).length := by
  cases rest with
  | nil => simp [pyJoin]
  | cons b t =>
    show a.length ≤ (a ++ sep ++ pyJoin sep (b :: t)).length
    simp [String.length_append]
    omega

theorem length_mk_chars (l : List Char) : (String.mk l).length = l.length := rfl

/-- The diagram-kind digest of the counterexample family is at least as
long as the embedded text body. -/
theorem summarizeDiagram_bigTextInput_length (n : Nat) (hn : 0 < n) :
    n ≤ (summarizeDiagram (String.mk (bigTextInput n))).length := by
  have hfind : findTexts (String.mk (bigTextInput n)).data
      = [List.replicate n 'a'] := findTexts_bigTextInput n hn
  rw [summarizeDiagram_single_capture _ _ hfind]
  have hmk : (String.mk (List.replicate n 'a')).length = n := by
    show (List.replicate n 'a').length = n
    simp
  have hlen : n ≤ ("Components: " ++ String.mk (List.replicate n 'a')).length := by
    rw [String.length_append, hmk]
    exact Nat.le_add_left n _
  exact le_trans hlen (pyJoin_cons_length_ge _ _ _)

/-- C8 counterexample: the digest function has no uniform output bound —
whatever function stands in for the CloudFormation-summary helper and
whatever candidate bound `B` is proposed, the `diagram`-kind digest of
`bigTextInput (B + 1)` (a single `<text>` element with a `B + 1`
character body) is at least `B + 1` characters long, because the
`Components:` line embeds up to 15 *untruncated* text captures.  This
refutes the claim that some fixed bound dominates the digest size for
every raw output and step kind. -/
theorem digest_not_bounded_counterexample :
    ¬ ∃ (cfSummarize : String → String) (B : Nat),
      ∀ (content outputType : String),
        (summarizeOutput cfSummarize content outputType).length < B := by
  rintro ⟨cfS, B, h⟩
  have hne : String.mk (bigTextInput (B + 1)) ≠ "" := by
    intro hcontr
    have hd : bigTextInput (B + 1) = [] := congrArg String.data hcontr
    simp [bigTextInput] at hd
  have hkey := h (String.mk (bigTextInput (B + 1))) "diagram"
  rw [summarizeOutput, if_neg hne,
    if_neg (by decide : ¬ ("diagram" : String) = "cloudformation"),
    if_pos rfl] at hkey
  have hbound := summarizeDiagram_bigTextInput_length (B + 1) (by omega)
  omega

/-- C8 as amended: for every step kind other than `cloudformation` and
`diagram`, the digest is the `content[:1000]` truncation and therefore
never exceeds 1000 characters, for arbitrarily large raw output; for the
`diagram` (and `cloudformation`) kinds no such fixed bound exists. -/
theorem digest_default_kind_bounded (cfSummarize : String → String)
    (content outputType : String)
    (h1 : outputType ≠ "cloudformation") (h2 : outputType ≠ "diagram") :
    (summarizeOutput cfSummarize content outputType).length ≤ 1000 := by
  unfold summarizeOutput
  by_cases hc : content = ""
  · simp [hc]
  · rw [if_neg hc, if_neg h1, if_neg h2]
    rw [length_mk_chars]
    have := List.length_take 1000 content.data
    omega

/-- Witness for `digest_default_kind_bounded` at a concrete `cost`-kind
digest. -/
theorem digest_default_kind_bounded_witness :
    (summarizeOutput (fun s => s) "hello" "cost").length ≤ 1000 :=
  digest_default_kind_bounded (fun s => s) "hello" "cost"
    (by decide) (by decide)

end SolutionBuilder
